import Mathlib

/-!
Verification development for the `tc-scripts` repository (three Python
command-line tools: `worker-pool-stats.py`, `worker_pool_stats.py`,
`worker_pool_types.py`).

The Python functions relevant to the claims are shallowly embedded as
executable Lean definitions:

* `reDatetimeMatch` embeds the `RE_DATETIME` regular expression together
  with `re.match` (anchored at the start only);
* `datetimeOfGroups` embeds the `datetime(...)` construction in `to_csv`;
* `gatherHeaders` / `toCsvRows` embed the worker `to_csv` projector;
* `get_pool_workers` / `get_worker_pools` embed the pagination collectors;
* `flatten_config` embeds the nested-config flattener;
* `aggregateCsvSet` embeds the `csv_set` grouping/counting branch of the
  pool `to_csv`;
* `workerSummaryData` / `workerPoolSummaryData` embed the computation
  pipelines of `worker_summary` (both file variants) and
  `worker_pool_summary`.

Python dictionaries are modelled as association lists in insertion order,
Python `int` as `Int`, and fallible code (assertions, `max()` on an empty
sequence, references to unbound names) as `Except PyErr`.
-/

/-- Python exception kinds that the embedded code can raise. -/
inductive PyErr where
  /-- `assert` failure (`MalformedTimestamp` / `DuplicateFlattenedKey`). -/
  | assertionError
  /-- `max()` of an empty sequence. -/
  | valueError
  /-- reference to an unbound name. -/
  | nameError
  /-- operation on a value of the wrong type. -/
  | typeError
  deriving DecidableEq

/-- A JSON-like Python value, as loaded from the worker-manager API or a
JSON snapshot.  Dictionaries are association lists in insertion order. -/
inductive PyVal where
  | str (s : String)
  | int (n : Int)
  | bool (b : Bool)
  | none
  | dict (fields : List (String × PyVal))
  | list (items : List PyVal)

/-- `d.get(k, default)` on an association-list dictionary: the value of the
first matching key. -/
def pyGet (d : List (String × PyVal)) (k : String) (default : PyVal) : PyVal :=
  match d.find? (fun p => p.1 = k) with
  | Option.some p => p.2
  | Option.none => default

/-- `k in d` on an association-list dictionary. -/
def pyHasKey (d : List (String × PyVal)) (k : String) : Bool :=
  d.any (fun p => p.1 = k)

/-! ### Datetime normalizer (`RE_DATETIME` and the `datetime(...)` calls)

`RE_DATETIME` is, verbatim from the source:

    ^(?P<year>[0-9]{4})-    # Year, followed by dash
    (?P<month>[01][0-9])-   # Month, followed by dash
    (?P<day>[0-3][0-9])T    # Day, followed by T
    (?P<hour>[0-5][0-9]):   # Hour, followed by colon
    (?P<minute>[0-5][0-9]): # Minute, followed by colon
    (?P<second>[0-5][0-9])  # Second
    \.?                     # Optional period
    (?P<msecond>[0-9]{3})   # Optional millisecond
    Z                       # Z for 00:00

Note that only the period is optional: the `msecond` group itself carries
no `?`, so three millisecond digits are required for a match.  The pattern
is applied with `re.match`, which anchors at the start of the string but
not at the end, so characters after the `Z` are permitted. -/

/-- The numeric values of the named groups of `RE_DATETIME`, after the
`int(...)` conversions performed in `to_csv`. -/
structure DtGroups where
  year : Nat
  month : Nat
  day : Nat
  hour : Nat
  minute : Nat
  second : Nat
  msecond : Nat
  deriving DecidableEq

/-- Match one character from the class `[lo-hi]`, returning its digit
value and the rest of the input. -/
def matchRange (lo hi : Char) : List Char → Option (Nat × List Char)
  | [] => Option.none
  | c :: rest =>
    if lo ≤ c ∧ c ≤ hi then Option.some (c.toNat - 48, rest) else Option.none

/-- Match one literal character. -/
def matchLit (ch : Char) : List Char → Option (List Char)
  | [] => Option.none
  | c :: rest => if c = ch then Option.some rest else Option.none

/-- Match a two-digit group `[0-hi1][0-9]` and return its integer value. -/
def matchField2 (hi1 : Char) (s : List Char) : Option (Nat × List Char) := do
  let (d1, s) ← matchRange '0' hi1 s
  let (d2, s) ← matchRange '0' '9' s
  pure (10 * d1 + d2, s)

/-- Match the four-digit `year` group `[0-9]{4}`. -/
def matchYear (s : List Char) : Option (Nat × List Char) := do
  let (d1, s) ← matchRange '0' '9' s
  let (d2, s) ← matchRange '0' '9' s
  let (d3, s) ← matchRange '0' '9' s
  let (d4, s) ← matchRange '0' '9' s
  pure (1000 * d1 + 100 * d2 + 10 * d3 + d4, s)

/-- `RE_DATETIME.match(s)`: `Option.some` of the parsed groups on a match,
`Option.none` otherwise.  The greedy `\.?` is deterministic here: when a
period is present it must be consumed (a period never matches `[0-9]`),
and trailing characters after the `Z` are ignored because `re.match` does
not anchor the end. -/
def reDatetimeMatch (s : String) : Option DtGroups := do
  let cs := s.data
  let (y, cs) ← matchYear cs
  let cs ← matchLit '-' cs
  let (mo, cs) ← matchField2 '1' cs
  let cs ← matchLit '-' cs
  let (d, cs) ← matchField2 '3' cs
  let cs ← matchLit 'T' cs
  let (h, cs) ← matchField2 '5' cs
  let cs ← matchLit ':' cs
  let (mi, cs) ← matchField2 '5' cs
  let cs ← matchLit ':' cs
  let (se, cs) ← matchField2 '5' cs
  let cs := match matchLit '.' cs with
    | Option.some rest => rest
    | Option.none => cs
  let (m1, cs) ← matchRange '0' '9' cs
  let (m2, cs) ← matchRange '0' '9' cs
  let (m3, cs) ← matchRange '0' '9' cs
  let _ ← matchLit 'Z' cs
  pure { year := y, month := mo, day := d, hour := h, minute := mi,
         second := se, msecond := 100 * m1 + 10 * m2 + m3 }

/-- A Python `datetime.datetime` value as constructed in `to_csv`:
calendar fields, microseconds, and whether `tzinfo=timezone.utc` was
passed (`utc = false` is a timezone-naive value). -/
structure PyDatetime where
  year : Nat
  month : Nat
  day : Nat
  hour : Nat
  minute : Nat
  second : Nat
  microsecond : Nat
  utc : Bool
  deriving DecidableEq

/-- The `datetime(...)` construction in `to_csv`: with `full_csv_datetimes`
the milliseconds are kept (as `1000 * msecond` microseconds) together with
`timezone.utc`; otherwise a naive datetime without sub-second part is
built. -/
def datetimeOfGroups (g : DtGroups) (fullCsvDatetimes : Bool) : PyDatetime :=
  if fullCsvDatetimes then
    { year := g.year, month := g.month, day := g.day, hour := g.hour,
      minute := g.minute, second := g.second,
      microsecond := 1000 * g.msecond, utc := true }
  else
    { year := g.year, month := g.month, day := g.day, hour := g.hour,
      minute := g.minute, second := g.second,
      microsecond := 0, utc := false }

/-! ### Pagination collectors (`get_pool_workers`, `get_worker_pools`)

A call to the listing operation returns a page: a list of items plus an
optional continuation token.  The remote API is modelled by the finite
sequence of pages it returns to the successive calls: the first call
yields `first`, and each iteration of the `while token:` loop consumes
the next element of `rest`. -/

/-- One response page of the paged listing API. -/
structure Page (α : Type) where
  items : List α
  continuationToken : Option String
  deriving DecidableEq

/-- Python truthiness of `page.get('continuationToken', None)`: `None` and
the empty string are falsy. -/
def tokenTruthy : Option String → Bool
  | Option.none => false
  | Option.some s => s ≠ ""

/-- The `while token:` loop of `get_pool_workers`: as long as the token is
truthy, fetch the next page, update the token, and append its items. -/
def get_pool_workers_loop {α : Type} : Option String → List (Page α) → List α
  | token, [] => if tokenTruthy token then [] else []
  | token, p :: ps =>
    if tokenTruthy token then p.items ++ get_pool_workers_loop p.continuationToken ps
    else []

/-- `get_pool_workers` of `worker_pool_stats.py` / `worker-pool-stats.py`:
the first page's `workers` list, extended by the items of every further
page while the continuation token stays truthy. -/
def get_pool_workers {α : Type} (first : Page α) (rest : List (Page α)) : List α :=
  first.items ++ get_pool_workers_loop first.continuationToken rest

/-- `get_worker_pools` of `worker_pool_types.py`.  The body of its
`while token:` loop evaluates `worker_manager.listWorkerPools(pool_id,
query=...)`, but no name `pool_id` is bound anywhere in that function, so
entering the loop raises `NameError` before any second page is fetched. -/
def get_worker_pools {α : Type} (first : Page α) (_rest : List (Page α)) :
    Except PyErr (List α) :=
  if tokenTruthy first.continuationToken then Except.error PyErr.nameError
  else Except.ok first.items

/-! ### Record-to-row projector (worker `to_csv`) -/

/-- First-seen-order deduplication: keeps the first occurrence of every
element, in order of first appearance. -/
def firstSeenDedup {α : Type} [DecidableEq α] : List α → List α
  | [] => []
  | a :: l => a :: firstSeenDedup (l.filter (fun b => b ≠ a))
termination_by l => l.length
decreasing_by
  simp only [List.length_cons]
  exact Nat.lt_succ_of_le (List.length_filter_le _ _)

/-- The header-gathering step of `to_csv`: append a key unless it was
already seen (the Python code keeps a `header_set` mirror of the
`headers` list purely as a fast membership test). -/
def insertHeader (hs : List String) (k : String) : List String :=
  if k ∈ hs then hs else hs ++ [k]

/-- The `headers` list built by `to_csv`: every key of every record, in
first-seen order. -/
def gatherHeaders (records : List (List (String × PyVal))) : List String :=
  records.foldl (fun hs r => r.foldl (fun hs' kv => insertHeader hs' kv.1) hs) []

/-- `date_keys = set(("created", "expires", "lastModified", "lastChecked"))`. -/
def dateKeys : List String := ["created", "expires", "lastModified", "lastChecked"]

/-- A value as written into a CSV row: either a verbatim record value or
a converted datetime. -/
inductive CsvCell where
  | val (v : PyVal)
  | dt (d : PyDatetime)

/-- The datetime-normalization path shared by both `to_csv` functions:
match against `RE_DATETIME` (a failed match trips the
`assert dt_match`), then build the `datetime` value. -/
def normalizeTimestamp (s : String) (full : Bool) : Except PyErr PyDatetime :=
  match reDatetimeMatch s with
  | Option.some g => Except.ok (datetimeOfGroups g full)
  | Option.none => Except.error PyErr.assertionError

/-- The per-value conversion in `to_csv`: a value under a date key is
normalized (calling `re.match` on a non-string raises `TypeError`), any
other value is copied verbatim. -/
def convertValue (key : String) (rawValue : PyVal) (full : Bool) :
    Except PyErr CsvCell :=
  if key ∈ dateKeys then
    match rawValue with
    | PyVal.str s => (normalizeTimestamp s full).map CsvCell.dt
    | _ => Except.error PyErr.typeError
  else Except.ok (CsvCell.val rawValue)

/-- The cell written for header key `k` of record `r`: `to_csv` builds a
`row` dict from the record's own items (converted) and hands it to
`csv.DictWriter`, which renders a missing fieldname as its default
`restval`, the empty string. -/
def renderCell (r : List (String × PyVal)) (full : Bool) (k : String) :
    Except PyErr CsvCell :=
  match r.find? (fun p => p.1 = k) with
  | Option.none => Except.ok (CsvCell.val (PyVal.str ""))
  | Option.some p => convertValue k p.2 full

/-- The total version of `renderCell`, agreeing with it whenever it
succeeds (the error branch is unreachable for well-formed records). -/
def renderCellOk (r : List (String × PyVal)) (full : Bool) (k : String) : CsvCell :=
  match renderCell r full k with
  | Except.ok c => c
  | Except.error _ => CsvCell.val (PyVal.str "")

/-- One output row of `to_csv`, aligned to the gathered header. -/
def renderRow (headers : List String) (full : Bool)
    (r : List (String × PyVal)) : Except PyErr (List CsvCell) :=
  headers.mapM (renderCell r full)

/-- The data rows written by the worker `to_csv`: one per input record,
in input order. -/
def toCsvRows (records : List (List (String × PyVal))) (full : Bool) :
    Except PyErr (List (List CsvCell)) :=
  records.mapM (renderRow (gatherHeaders records) full)

/-- Every value stored under a date key parses with `RE_DATETIME` (the
implicit precondition under which `to_csv` reaches the end of a row). -/
def wellFormedRecord (r : List (String × PyVal)) : Bool :=
  r.all (fun p =>
    if p.1 ∈ dateKeys then
      match p.2 with
      | PyVal.str s => (reDatetimeMatch s).isSome
      | _ => false
    else true)

/-- All records of a batch are well-formed. -/
def wellFormedDates (records : List (List (String × PyVal))) : Bool :=
  records.all wellFormedRecord

/-! ### Config flattener (`flatten_config` of `worker_pool_types.py`)

`flatten_config` walks a nested dictionary, joining key paths with `_`.
Every insertion into the result dictionary is guarded by
`assert full_key not in ret`, so a colliding compound key aborts instead
of overwriting.  The walk is embedded twice: `flattenFields` /
`flattenItems` thread the `ret` dictionary and fail exactly as the
Python code does, while `derivedFields` / `derivedItems` compute the raw
sequence of derived key/value pairs (duplicates and all), which lets the
collision condition be stated as non-`Nodup`-ness of the derived keys. -/

/-- The `pre` computed at the top of `flatten_config`: `prefix + "_"` for
a truthy (non-empty) prefix, `""` otherwise. -/
def prePfx (pfx : String) : String :=
  if pfx = "" then "" else pfx ++ "_"

/-- `assert full_key not in ret; ret[full_key] = val`. -/
def insertUnique (ret : List (String × PyVal)) (k : String) (v : PyVal) :
    Except PyErr (List (String × PyVal)) :=
  if ret.any (fun p => p.1 = k) then Except.error PyErr.assertionError
  else Except.ok (ret ++ [(k, v)])

/-- The `for nkey, nval in nested.items()` merge loop: each nested pair is
inserted under `pre + nkey`, with the same duplicate assertion. -/
def insertNested (pre : String) (nested : List (String × PyVal))
    (ret : List (String × PyVal)) : Except PyErr (List (String × PyVal)) :=
  match nested with
  | [] => Except.ok ret
  | (nkey, nval) :: rest => do
    let ret' ← insertUnique ret (pre ++ nkey) nval
    insertNested pre rest ret'

mutual

/-- The `for key, val in config_dict.items()` loop of `flatten_config`,
threading the accumulated `ret` dictionary.  A mapping value recurses
with the key as new prefix; a list value is expanded per element when
`suffix` is set and copied verbatim otherwise; any other value is stored
under `pre + key`. -/
def flattenFields (fields : List (String × PyVal)) (pre : String) (sfx : Bool)
    (ret : List (String × PyVal)) : Except PyErr (List (String × PyVal)) :=
  match fields with
  | [] => Except.ok ret
  | (key, val) :: rest =>
    match val with
    | PyVal.dict f => do
      let nested ← flattenFields f (prePfx key) sfx []
      let ret' ← insertNested pre nested ret
      flattenFields rest pre sfx ret'
    | PyVal.list items =>
      if sfx then do
        let ret' ← flattenItems items key pre sfx 0 ret
        flattenFields rest pre sfx ret'
      else do
        let ret' ← insertUnique ret (pre ++ key) (PyVal.list items)
        flattenFields rest pre sfx ret'
    | v => do
      let ret' ← insertUnique ret (pre ++ key) v
      flattenFields rest pre sfx ret'
termination_by sizeOf fields

/-- The `for pos, item in enumerate(val)` loop of `flatten_config` for a
list value under an enabled `suffix` flag: a mapping element recurses
with prefix `key_pos`, any other element is stored under
`pre + key_pos`. -/
def flattenItems (items : List PyVal) (key pre : String) (sfx : Bool) (pos : Nat)
    (ret : List (String × PyVal)) : Except PyErr (List (String × PyVal)) :=
  match items with
  | [] => Except.ok ret
  | item :: rest =>
    match item with
    | PyVal.dict f => do
      let nested ← flattenFields f (prePfx (key ++ "_" ++ toString pos)) sfx []
      let ret' ← insertNested pre nested ret
      flattenItems rest key pre sfx (pos + 1) ret'
    | v => do
      let ret' ← insertUnique ret (pre ++ key ++ "_" ++ toString pos) v
      flattenItems rest key pre sfx (pos + 1) ret'
termination_by sizeOf items

end

/-- `flatten_config(config_dict, prefix, suffix)` on a dictionary given as
an association list. -/
def flatten_config (fields : List (String × PyVal)) (pfx : String) (sfx : Bool) :
    Except PyErr (List (String × PyVal)) :=
  flattenFields fields (prePfx pfx) sfx []

mutual

/-- The sequence of key/value pairs `flatten_config` derives from the
fields of a dictionary, in derivation order and with duplicate keys kept:
the reference against which success and failure of `flattenFields` are
characterised. -/
def derivedFields (fields : List (String × PyVal)) (pre : String) (sfx : Bool) :
    List (String × PyVal) :=
  match fields with
  | [] => []
  | (key, val) :: rest =>
    match val with
    | PyVal.dict f =>
      (derivedFields f (prePfx key) sfx).map (fun p => (pre ++ p.1, p.2))
        ++ derivedFields rest pre sfx
    | PyVal.list items =>
      if sfx then derivedItems items key pre sfx 0 ++ derivedFields rest pre sfx
      else (pre ++ key, PyVal.list items) :: derivedFields rest pre sfx
    | v => (pre ++ key, v) :: derivedFields rest pre sfx
termination_by sizeOf fields

/-- The pairs derived from the elements of a suffix-expanded list value. -/
def derivedItems (items : List PyVal) (key pre : String) (sfx : Bool) (pos : Nat) :
    List (String × PyVal) :=
  match items with
  | [] => []
  | item :: rest =>
    match item with
    | PyVal.dict f =>
      (derivedFields f (prePfx (key ++ "_" ++ toString pos)) sfx).map
          (fun p => (pre ++ p.1, p.2))
        ++ derivedItems rest key pre sfx (pos + 1)
    | v =>
      (pre ++ key ++ "_" ++ toString pos, v)
        :: derivedItems rest key pre sfx (pos + 1)
termination_by sizeOf items

end

/-! ### Column-subset aggregator (the `csv_set` branch of the pool `to_csv`)

The `amis` view projects onto string-valued columns of the flattened
rows, so a flattened row is modelled as an association list from column
name to string; Python's `sorted` on the grouping tuples is the
lexicographic order on equal-length tuples of strings, i.e. the `Lex`
order on `List String`. -/

/-- `flat_config.get(key, '')` on a flattened row. -/
def rowGet (r : List (String × String)) (k : String) : String :=
  match r.find? (fun p => p.1 = k) with
  | Option.some p => p.2
  | Option.none => ""

/-- `tuple(flat_config.get(key, '') for key in columns)`. -/
def groupTuple (columns : List String) (r : List (String × String)) : List String :=
  columns.map (fun k => rowGet r k)

/-- The `csv_set` branch of `to_csv` in `worker_pool_types.py`: count the
occurrences of every grouping tuple (the `counts` defaultdict, whose keys
appear in insertion order), then emit `sorted(counts.keys())` each with
its count appended as the `launch_config_count` column. -/
def aggregateCsvSet (columns : List String)
    (rows : List (List (String × String))) : List (List String × Nat) :=
  let tuples := rows.map (groupTuple columns)
  let sortedKeys :=
    List.insertionSort (fun a b : List String => a ≤ b) (firstSeenDedup tuples)
  sortedKeys.map (fun k => (k, tuples.count k))

/-- The column list of the one named view, `CSV_SET["amis"]`. -/
def amisColumns : List String :=
  ["workerPoolId", "providerId", "created", "lastModified", "owner",
   "lc_launchConfig_ImageId", "lc_region",
   "lc_disks_0_initializeParams_sourceImage"]

/-! ### Worker summary (`worker_summary`, both file variants)

The two `worker_summary` functions differ only in how `state_len` is
computed; everything up to the widths is shared and embedded once. -/

/-- A worker record, with the five fields `worker_summary` reads;
`Option.none` models an absent key. -/
structure Worker where
  workerPoolId : Option String
  workerGroup : Option String
  providerId : Option String
  state : Option String
  capacity : Option Int
  deriving DecidableEq

/-- `int(worker.get('capacity', 1))`. -/
def workerCapacity (w : Worker) : Int := w.capacity.getD 1

/-- The grouping key `(pool_id, group, provider_id, state)`. -/
abbrev GroupKey := String × String × String × String

/-- `defaultdict(int)` increment: `m[k] += v`, with entries in first-use
order. -/
def bump {α : Type} [DecidableEq α] (m : List (α × Int)) (k : α) (v : Int) :
    List (α × Int) :=
  match m with
  | [] => [(k, v)]
  | (k', v') :: rest =>
    if k' = k then (k', v' + v) :: rest else (k', v') :: bump rest k v

/-- `s.add(a)` on a set modelled as a duplicate-free list. -/
def addToSet {α : Type} [DecidableEq α] (s : List α) (a : α) : List α :=
  if a ∈ s then s else s ++ [a]

/-- Value lookup in a `defaultdict(int)`: 0 for an absent key. -/
def countOf {α : Type} [DecidableEq α] (m : List (α × Int)) (k : α) : Int :=
  match m.find? (fun p => p.1 = k) with
  | Option.some p => p.2
  | Option.none => 0

/-- The running state of the `for worker in workers` loop of
`worker_summary`.  `known_states` always holds exactly the elements of
`state_order` (both start from the four known states and are extended
together), so membership is tested against `stateOrder` directly. -/
structure SummaryAcc where
  keySet : List GroupKey
  keyWorkerCounts : List (GroupKey × Int)
  keyCapacityCounts : List (GroupKey × Int)
  stateWorkerCounts : List (String × Int)
  stateCapacityCounts : List (String × Int)
  stateOrder : List String

/-- One iteration of the loop body of `worker_summary`.  Note
`stateCapacityCounts`: the source increments `state_capacity_counts[state]`
by `1` (not by `capacity`), exactly as written on its
`state_capacity_counts[state] += 1` line. -/
def summaryStep (acc : SummaryAcc) (w : Worker) : SummaryAcc :=
  let pool_id := w.workerPoolId.getD ""
  let group := w.workerGroup.getD ""
  let provider_id := w.providerId.getD ""
  let state := w.state.getD ""
  let capacity := workerCapacity w
  let key : GroupKey := (pool_id, group, provider_id, state)
  { keySet := addToSet acc.keySet key
    keyWorkerCounts := bump acc.keyWorkerCounts key 1
    keyCapacityCounts := bump acc.keyCapacityCounts key capacity
    stateWorkerCounts := bump acc.stateWorkerCounts state 1
    stateCapacityCounts := bump acc.stateCapacityCounts state 1
    stateOrder :=
      if state ∈ acc.stateOrder then acc.stateOrder
      else acc.stateOrder ++ [state] }

/-- `state_order = ['requested', 'running', 'stopping', 'stopped']` and
empty collections, as before the loop. -/
def initAcc : SummaryAcc :=
  { keySet := []
    keyWorkerCounts := []
    keyCapacityCounts := []
    stateWorkerCounts := []
    stateCapacityCounts := []
    stateOrder := ["requested", "running", "stopping", "stopped"] }

/-- The accumulated counts and state order after the whole loop. -/
def summaryAcc (workers : List Worker) : SummaryAcc :=
  workers.foldl summaryStep initAcc

/-- The sort key `(k[0], k[1], k[2], state_order.index(k[3]))`, as a value
of the lexicographically ordered product. -/
def groupSortKey (so : List String) (k : GroupKey) :
    Lex (String × Lex (String × Lex (String × Nat))) :=
  toLex (k.1, toLex (k.2.1, toLex (k.2.2.1, so.indexOf k.2.2.2)))

/-- `keys = sorted(key_set, key=lambda k: (k[0], k[1], k[2],
state_order.index(k[3])))`.  The sort key is injective on the distinct
group keys (states are unique within `state_order`), so any sorted
permutation equals Python's. -/
def summaryKeys (workers : List Worker) : List GroupKey :=
  let acc := summaryAcc workers
  List.insertionSort
    (fun a b => groupSortKey acc.stateOrder a ≤ groupSortKey acc.stateOrder b)
    acc.keySet

/-- Python's `max(...)` over a sequence of naturals: `ValueError` on an
empty sequence. -/
def pythonMax (l : List Nat) : Except PyErr Nat :=
  match l with
  | [] => Except.error PyErr.valueError
  | a :: rest => Except.ok (rest.foldl max a)

/-- Everything `worker_summary` computes before rendering: the sorted
group keys, the four count tables, the final state order and the column
widths. -/
structure WorkerSummaryData where
  stateOrder : List String
  keys : List GroupKey
  keyWorkerCounts : List (GroupKey × Int)
  keyCapacityCounts : List (GroupKey × Int)
  stateWorkerCounts : List (String × Int)
  stateCapacityCounts : List (String × Int)
  poolIdLen : Nat
  groupLen : Nat
  providerLen : Nat
  stateLen : Nat
  workersLen : Nat
  capacityLen : Nat

/-- `worker_summary` of `worker_pool_stats.py` (underscore variant):
`state_len = max(len(state) for state in known_states)` — over all known
states, without the `'State'` header.  The width computations fail with
`ValueError` when `keys` is empty. -/
def worker_summary_stats (workers : List Worker) :
    Except PyErr WorkerSummaryData := do
  let acc := summaryAcc workers
  let keys := summaryKeys workers
  let m0 ← pythonMax (keys.map (fun k => k.1.length))
  let poolIdLen := max "Pool ID".length m0
  let m1 ← pythonMax (keys.map (fun k => k.2.1.length))
  let groupLen := max "Group ID".length m1
  let m2 ← pythonMax (keys.map (fun k => k.2.2.1.length))
  let providerLen := max "Provider ID".length m2
  let stateLen ← pythonMax (acc.stateOrder.map String.length)
  pure { stateOrder := acc.stateOrder
         keys := keys
         keyWorkerCounts := acc.keyWorkerCounts
         keyCapacityCounts := acc.keyCapacityCounts
         stateWorkerCounts := acc.stateWorkerCounts
         stateCapacityCounts := acc.stateCapacityCounts
         poolIdLen := poolIdLen
         groupLen := groupLen
         providerLen := providerLen
         stateLen := stateLen
         workersLen := "Workers".length
         capacityLen := "Capacity".length }

/-- `worker_summary` of `worker-pool-stats.py` (dash variant):
`state_len = max(len('State'), max(len(key[3]) for key in keys))` — over
the states of the group keys only. -/
def worker_summary_dash (workers : List Worker) :
    Except PyErr WorkerSummaryData := do
  let acc := summaryAcc workers
  let keys := summaryKeys workers
  let m0 ← pythonMax (keys.map (fun k => k.1.length))
  let poolIdLen := max "Pool ID".length m0
  let m1 ← pythonMax (keys.map (fun k => k.2.1.length))
  let groupLen := max "Group ID".length m1
  let m2 ← pythonMax (keys.map (fun k => k.2.2.1.length))
  let providerLen := max "Provider ID".length m2
  let m3 ← pythonMax (keys.map (fun k => k.2.2.2.length))
  let stateLen := max "State".length m3
  pure { stateOrder := acc.stateOrder
         keys := keys
         keyWorkerCounts := acc.keyWorkerCounts
         keyCapacityCounts := acc.keyCapacityCounts
         stateWorkerCounts := acc.stateWorkerCounts
         stateCapacityCounts := acc.stateCapacityCounts
         poolIdLen := poolIdLen
         groupLen := groupLen
         providerLen := providerLen
         stateLen := stateLen
         workersLen := "Workers".length
         capacityLen := "Capacity".length }

/-! ### Worker-pool summary (`worker_pool_summary` of `worker_pool_types.py`) -/

/-- The `config` sub-dictionary of a pool, with the fields
`worker_pool_summary` reads. -/
structure PoolConfig where
  maxCapacity : Option Int
  minCapacity : Option Int
  launchConfigs : Option (List PyVal)

/-- A worker-pool record, with the fields `worker_pool_summary` reads. -/
structure Pool where
  workerPoolId : Option String
  providerId : Option String
  currentCapacity : Option Int
  owner : Option String
  config : Option PoolConfig

/-- The grouping tuple `(pool_id, provider_id, capacity, min_capacity,
max_capacity, owner, launch_configs_count)`.  `min_capacity` and
`max_capacity` are read with `config.get(..., '')`, so an absent field
yields the empty-string default, modelled as `Option.none`. -/
abbrev PoolKey :=
  String × String × Int × Option Int × Option Int × String × Nat

instance : DecidableEq PoolKey :=
  @instDecidableEqProd _ _ _
    (inferInstance : DecidableEq (String × Int × Option Int × Option Int × String × Nat))

/-- The key built for one pool record. -/
def poolKey (p : Pool) : PoolKey :=
  ( p.workerPoolId.getD ""
  , p.providerId.getD ""
  , p.currentCapacity.getD 0
  , p.config.bind PoolConfig.minCapacity
  , p.config.bind PoolConfig.maxCapacity
  , p.owner.getD ""
  , (match p.config with
     | Option.some c => c.launchConfigs.getD []
     | Option.none => []).length )

/-- `str(key[index])` for the capacity-like positions: an integer prints
as its decimal form, the empty-string default as `""`. -/
def strOfOptInt : Option Int → String
  | Option.some n => toString n
  | Option.none => ""

/-- `Option Int` viewed in `WithBot Int`, to order the key tuples: the
claims under verification do not depend on the row order (the widths
below are order-invariant), and Python would raise `TypeError` when
comparing an `''` default against an `int`, so the empty default is
placed first. -/
def optIntW (o : Option Int) : WithBot Int :=
  match o with
  | Option.none => ⊥
  | Option.some n => (n : WithBot Int)

/-- The lexicographic sort key for `sorted(key_set)`. -/
def poolSortKey (k : PoolKey) :
    Lex (String × Lex (String × Lex (Int × Lex (WithBot Int ×
      Lex (WithBot Int × Lex (String × Nat)))))) :=
  toLex (k.1, toLex (k.2.1, toLex (k.2.2.1, toLex (optIntW k.2.2.2.1,
    toLex (optIntW k.2.2.2.2.1, toLex (k.2.2.2.2.2.1, k.2.2.2.2.2.2))))))

/-- Everything `worker_pool_summary` computes before rendering: the
sorted key tuples, the seven column widths, and the footer count. -/
structure PoolSummaryData where
  keys : List PoolKey
  poolIdW : Nat
  providerW : Nat
  capacityW : Nat
  minCapW : Nat
  maxCapW : Nat
  ownerW : Nat
  launchConfigsW : Nat
  poolCount : Nat

/-- `keys = sorted(key_set)` of `worker_pool_summary`: the deduplicated
key tuples in ascending lexicographic order. -/
def poolSummaryKeys (pools : List Pool) : List PoolKey :=
  List.insertionSort (fun a b => poolSortKey a ≤ poolSortKey b)
    (pools.foldl (fun s p => addToSet s (poolKey p)) [])

/-- `worker_pool_summary`: deduplicate the key tuples, sort them, and
compute every column width as
`max(len(title), max(len(str(key[index])) for key in keys))` — which
raises `ValueError` when `keys` is empty. -/
def worker_pool_summary (pools : List Pool) : Except PyErr PoolSummaryData := do
  let keys := poolSummaryKeys pools
  let m0 ← pythonMax (keys.map (fun k => k.1.length))
  let m1 ← pythonMax (keys.map (fun k => k.2.1.length))
  let m2 ← pythonMax (keys.map (fun k => (toString k.2.2.1).length))
  let m3 ← pythonMax (keys.map (fun k => (strOfOptInt k.2.2.2.1).length))
  let m4 ← pythonMax (keys.map (fun k => (strOfOptInt k.2.2.2.2.1).length))
  let m5 ← pythonMax (keys.map (fun k => k.2.2.2.2.2.1.length))
  let m6 ← pythonMax (keys.map (fun k => (toString k.2.2.2.2.2.2).length))
  pure { keys := keys
         poolIdW := max "Pool ID".length m0
         providerW := max "Provider ID".length m1
         capacityW := max "Capacity".length m2
         minCapW := max "Min Cap".length m3
         maxCapW := max "Max Cap".length m4
         ownerW := max "Owner".length m5
         launchConfigsW := max "Launch Configs".length m6
         poolCount := pools.length }

/-- The column-width rule as the spec words it: "the max of the header
label's length and the longest stringified value in that column"
(this definition follows the spec's words, for comparison against the
widths the code computes). -/
def specColWidth (header : String) (values : List String) : Nat :=
  max header.length ((values.map String.length).foldl max 0)


/-! ### Auxiliary definitions and concrete inputs used by the theorems -/

/-- The outcome `flatten_config` produces when extending an accumulated
dictionary `ret` by a sequence `add` of derived pairs: the extended
dictionary when all keys stay distinct, the duplicate-key assertion
failure otherwise. -/
def flattenedOutcome (ret add : List (String × PyVal)) :
    Except PyErr (List (String × PyVal)) :=
  if ((ret ++ add).map Prod.fst).Nodup then Except.ok (ret ++ add)
  else Except.error PyErr.assertionError

/-- `worker.get('state', '')`. -/
def workerState (w : Worker) : String := w.state.getD ""

/-- A worker with only a state and a capacity, as in the spec's worked
example. -/
def exW (st : String) (cap : Int) : Worker :=
  { workerPoolId := Option.none, workerGroup := Option.none,
    providerId := Option.none, state := Option.some st,
    capacity := Option.some cap }

/-- The spec's example list: two running workers of capacities 2 and 3,
one pending worker of capacity 1. -/
def exampleWorkers : List Worker :=
  [exW "running" 2, exW "running" 3, exW "pending" 1]

/-- A single worker whose only observed state is `running` (7 characters,
shorter than `requested`). -/
def c4Worker : Worker :=
  { workerPoolId := Option.some "p", workerGroup := Option.some "g",
    providerId := Option.some "i", state := Option.some "running",
    capacity := Option.none }

/-- A single pool record with a plain key. -/
def c4Pool : Pool :=
  { workerPoolId := Option.some "pp", providerId := Option.some "prov",
    currentCapacity := Option.some 3, owner := Option.some "o",
    config := Option.none }

/-- Two records with different key sets, one carrying a date field. -/
def exampleRecords : List (List (String × PyVal)) :=
  [[("created", PyVal.str "2021-03-05T14:22:09.123Z"), ("a", PyVal.int 1)],
   [("b", PyVal.str "x")]]

/-- The grouping key built in the loop body of `worker_summary` (the same
tuple `summaryStep` constructs). -/
def workerKey (w : Worker) : GroupKey :=
  (w.workerPoolId.getD "", w.workerGroup.getD "",
   w.providerId.getD "", w.state.getD "")

/-- A single worker whose capacity, 123456789, stringifies to 9
characters — wider than the `Capacity` header (8). -/
def c4CapWorker : Worker :=
  { workerPoolId := Option.some "p", workerGroup := Option.some "g",
    providerId := Option.some "i", state := Option.some "running",
    capacity := Option.some 123456789 }

/-- Ten million identical workers: their group's worker count, 10000000,
stringifies to 8 characters — wider than the `Workers` header (7). -/
def bigWorkerList : List Worker := List.replicate 10000000 c4Worker

/-! ## Theorems -/



theorem insertUnique_spec (ret : List (String × PyVal)) (k : String) (v : PyVal)
    (h : (ret.map Prod.fst).Nodup) :
    insertUnique ret k v = flattenedOutcome ret [(k, v)] := by
  unfold insertUnique flattenedOutcome
  by_cases hk : k ∈ ret.map Prod.fst
  · have hany : ret.any (fun p => p.1 = k) = true := by
      simp only [List.any_eq_true]
      obtain ⟨p, hp, hpk⟩ := List.mem_map.mp hk
      exact ⟨p, hp, by simp [hpk]⟩
    rw [if_pos (by simpa using hany)]
    have : ¬ ((ret ++ [(k, v)]).map Prod.fst).Nodup := by
      simp only [List.map_append, List.map_cons, List.map_nil]
      intro hnd
      have := List.disjoint_of_nodup_append hnd
      exact this hk (by simp)
    rw [if_neg this]
  · have hany : ret.any (fun p => p.1 = k) = false := by
      simp only [List.any_eq_false]
      intro p hp
      intro hpk
      exact hk (List.mem_map.mpr ⟨p, hp, by simpa using hpk⟩)
    rw [if_neg (by simp [hany])]
    have : ((ret ++ [(k, v)]).map Prod.fst).Nodup := by
      simp only [List.map_append, List.map_cons, List.map_nil]
      rw [List.nodup_append]
      exact ⟨h, List.nodup_singleton _, by simpa using hk⟩
    rw [if_pos this]

theorem insertNested_spec (pre : String) (nested : List (String × PyVal)) :
    ∀ ret : List (String × PyVal), (ret.map Prod.fst).Nodup →
    insertNested pre nested ret
      = flattenedOutcome ret (nested.map (fun p => (pre ++ p.1, p.2))) := by
  induction nested with
  | nil => intro ret h; simp [insertNested, flattenedOutcome, h]
  | cons q rest ih =>
    intro ret h
    obtain ⟨nkey, nval⟩ := q
    rw [insertNested]
    rw [insertUnique_spec ret (pre ++ nkey) nval h]
    unfold flattenedOutcome
    by_cases h1 : ((ret ++ [(pre ++ nkey, nval)]).map Prod.fst).Nodup
    · rw [if_pos h1]
      show (insertNested pre rest (ret ++ [(pre ++ nkey, nval)])) = _
      rw [ih (ret ++ [(pre ++ nkey, nval)]) h1]
      unfold flattenedOutcome
      rw [List.append_assoc]
      rfl
    · rw [if_neg h1]
      have : ¬ ((ret ++ ((nkey, nval) :: rest).map
          (fun p => (pre ++ p.1, p.2))).map Prod.fst).Nodup := by
        intro hnd
        apply h1
        have hsub : ((ret ++ [(pre ++ nkey, nval)]).map Prod.fst).Sublist
            ((ret ++ ((nkey, nval) :: rest).map (fun p => (pre ++ p.1, p.2))).map Prod.fst) := by
          apply List.Sublist.map
          apply List.Sublist.append_left
          simp only [List.map_cons]
          exact (List.nil_sublist _).cons₂ _
        exact hnd.sublist hsub
      rw [if_neg this]
      rfl

theorem flatten_glue {mid tail ret : List (String × PyVal)}
    (step : Except PyErr (List (String × PyVal)))
    (cont : List (String × PyVal) → Except PyErr (List (String × PyVal)))
    (hstep : step = flattenedOutcome ret mid)
    (hcont : ∀ ret', (ret'.map Prod.fst).Nodup →
        cont ret' = flattenedOutcome ret' tail) :
    (step >>= cont) = flattenedOutcome ret (mid ++ tail) := by
  unfold flattenedOutcome at hstep ⊢
  by_cases h1 : ((ret ++ mid).map Prod.fst).Nodup
  · rw [hstep, if_pos h1]
    show cont (ret ++ mid) = _
    rw [hcont _ h1]
    unfold flattenedOutcome
    rw [← List.append_assoc]
  · rw [hstep, if_neg h1]
    have : ¬ ((ret ++ (mid ++ tail)).map Prod.fst).Nodup := by
      intro hnd
      apply h1
      refine hnd.sublist (List.Sublist.map _ ?_)
      exact List.Sublist.append_left (List.sublist_append_left mid tail) ret
    rw [if_neg this]
    rfl

theorem derived_nodup_of_combined {pre : String} {df ret tail : List (String × PyVal)}
    (h : ((ret ++ (df.map (fun p => (pre ++ p.1, p.2)) ++ tail)).map Prod.fst).Nodup) :
    (df.map Prod.fst).Nodup := by
  have hsub : (df.map (fun p => (pre ++ p.1, p.2))).Sublist
      (ret ++ (df.map (fun p => (pre ++ p.1, p.2)) ++ tail)) := by
    exact (List.sublist_append_left _ _).trans (List.sublist_append_right _ _)
  have h1 : ((df.map (fun p => (pre ++ p.1, p.2))).map Prod.fst).Nodup :=
    h.sublist (List.Sublist.map _ hsub)
  have h2 : (df.map (fun p => (pre ++ p.1, p.2))).map Prod.fst
      = (df.map Prod.fst).map (fun s => pre ++ s) := by
    simp [List.map_map, Function.comp]
  rw [h2] at h1
  exact h1.of_map

theorem flattenFields_spec : ∀ (fields : List (String × PyVal)) (pre : String)
    (sfx : Bool) (ret : List (String × PyVal)), (ret.map Prod.fst).Nodup →
    flattenFields fields pre sfx ret
      = flattenedOutcome ret (derivedFields fields pre sfx) := by
  refine flattenFields.induct
    (fun fields pre sfx ret => (ret.map Prod.fst).Nodup →
      flattenFields fields pre sfx ret
        = flattenedOutcome ret (derivedFields fields pre sfx))
    (fun items key pre sfx pos ret => (ret.map Prod.fst).Nodup →
      flattenItems items key pre sfx pos ret
        = flattenedOutcome ret (derivedItems items key pre sfx pos))
    ?_ ?_ ?_ ?_ ?_ ?_ ?_ ?_
  · intro pre sfx ret h
    simp [flattenFields, derivedFields, flattenedOutcome, h]
  · -- dict field
    intro pre sfx ret nkey rest f ih1 ih2 h
    rw [show flattenFields ((nkey, PyVal.dict f) :: rest) pre sfx ret
        = (flattenFields f (prePfx nkey) sfx [] >>= fun nested =>
            insertNested pre nested ret >>= fun ret' =>
              flattenFields rest pre sfx ret') from by
      simp [flattenFields]]
    rw [show derivedFields ((nkey, PyVal.dict f) :: rest) pre sfx
        = (derivedFields f (prePfx nkey) sfx).map (fun p => (pre ++ p.1, p.2))
          ++ derivedFields rest pre sfx from by
      simp [derivedFields]]
    have hf := ih1 (by simp)
    by_cases hdf : ((derivedFields f (prePfx nkey) sfx).map Prod.fst).Nodup
    · rw [hf, show flattenedOutcome [] (derivedFields f (prePfx nkey) sfx)
          = Except.ok (derivedFields f (prePfx nkey) sfx) from by
        simp [flattenedOutcome, hdf]]
      show (insertNested pre (derivedFields f (prePfx nkey) sfx) ret >>= fun ret' =>
        flattenFields rest pre sfx ret') = _
      exact flatten_glue _ _ (insertNested_spec pre _ ret h) (fun ret' h' => ih2 ret' h')
    · rw [hf, show flattenedOutcome [] (derivedFields f (prePfx nkey) sfx)
          = Except.error PyErr.assertionError from by
        simp [flattenedOutcome, hdf]]
      rw [show flattenedOutcome ret
          ((derivedFields f (prePfx nkey) sfx).map (fun p => (pre ++ p.1, p.2))
            ++ derivedFields rest pre sfx)
          = Except.error PyErr.assertionError from by
        unfold flattenedOutcome
        rw [if_neg (fun hc => hdf (derived_nodup_of_combined hc))]]
      rfl
  · -- list field, suffix true
    intro pre ret nkey rest items ih1 ih2 h
    rw [show flattenFields ((nkey, PyVal.list items) :: rest) pre true ret
        = (flattenItems items nkey pre true 0 ret >>= fun ret' =>
            flattenFields rest pre true ret') from by
      simp [flattenFields]]
    rw [show derivedFields ((nkey, PyVal.list items) :: rest) pre true
        = derivedItems items nkey pre true 0 ++ derivedFields rest pre true from by
      simp [derivedFields]]
    exact flatten_glue _ _ (ih1 h) (fun ret' h' => ih2 ret' h')
  · -- list field, suffix false
    intro pre sfx ret nkey rest items hsfx ih2 h
    have hb : sfx = false := by
      cases sfx
      · rfl
      · exact absurd rfl hsfx
    subst hb
    rw [show flattenFields ((nkey, PyVal.list items) :: rest) pre false ret
        = (insertUnique ret (pre ++ nkey) (PyVal.list items) >>= fun ret' =>
            flattenFields rest pre false ret') from by
      simp [flattenFields]]
    rw [show derivedFields ((nkey, PyVal.list items) :: rest) pre false
        = (pre ++ nkey, PyVal.list items) :: derivedFields rest pre false from by
      simp [derivedFields]]
    have : ((pre ++ nkey, PyVal.list items) :: derivedFields rest pre false)
        = [(pre ++ nkey, PyVal.list items)] ++ derivedFields rest pre false := rfl
    rw [this]
    exact flatten_glue _ _ (insertUnique_spec ret _ _ h) (fun ret' h' => ih2 ret' h')
  · -- scalar field
    intro pre sfx ret nkey rest v hnd hnl ih2 h
    have hflat : flattenFields ((nkey, v) :: rest) pre sfx ret
        = (insertUnique ret (pre ++ nkey) v >>= fun ret' =>
            flattenFields rest pre sfx ret') := by
      cases v with
      | dict f => exact absurd rfl (hnd f)
      | list items => exact absurd rfl (hnl items)
      | str s => simp [flattenFields]
      | int n => simp [flattenFields]
      | bool b => simp [flattenFields]
      | none => simp [flattenFields]
    have hder : derivedFields ((nkey, v) :: rest) pre sfx
        = [(pre ++ nkey, v)] ++ derivedFields rest pre sfx := by
      cases v with
      | dict f => exact absurd rfl (hnd f)
      | list items => exact absurd rfl (hnl items)
      | str s => simp [derivedFields]
      | int n => simp [derivedFields]
      | bool b => simp [derivedFields]
      | none => simp [derivedFields]
    rw [hflat, hder]
    exact flatten_glue _ _ (insertUnique_spec ret _ _ h) (fun ret' h' => ih2 ret' h')
  · -- items nil
    intro key pre sfx pos ret h
    simp [flattenItems, derivedItems, flattenedOutcome, h]
  · -- items dict element
    intro key pre sfx pos ret rest f ih1 ih2 h
    rw [show flattenItems (PyVal.dict f :: rest) key pre sfx pos ret
        = (flattenFields f (prePfx (key ++ "_" ++ toString pos)) sfx [] >>= fun nested =>
            insertNested pre nested ret >>= fun ret' =>
              flattenItems rest key pre sfx (pos + 1) ret') from by
      simp [flattenItems]]
    rw [show derivedItems (PyVal.dict f :: rest) key pre sfx pos
        = (derivedFields f (prePfx (key ++ "_" ++ toString pos)) sfx).map
            (fun p => (pre ++ p.1, p.2))
          ++ derivedItems rest key pre sfx (pos + 1) from by
      simp [derivedItems]]
    have hf := ih1 (by simp)
    by_cases hdf : ((derivedFields f (prePfx (key ++ "_" ++ toString pos)) sfx).map
        Prod.fst).Nodup
    · rw [hf, show flattenedOutcome []
            (derivedFields f (prePfx (key ++ "_" ++ toString pos)) sfx)
          = Except.ok (derivedFields f (prePfx (key ++ "_" ++ toString pos)) sfx) from by
        simp [flattenedOutcome, hdf]]
      show (insertNested pre (derivedFields f (prePfx (key ++ "_" ++ toString pos)) sfx)
          ret >>= fun ret' => flattenItems rest key pre sfx (pos + 1) ret') = _
      exact flatten_glue _ _ (insertNested_spec pre _ ret h) (fun ret' h' => ih2 ret' h')
    · rw [hf, show flattenedOutcome []
            (derivedFields f (prePfx (key ++ "_" ++ toString pos)) sfx)
          = Except.error PyErr.assertionError from by
        simp [flattenedOutcome, hdf]]
      rw [show flattenedOutcome ret
          ((derivedFields f (prePfx (key ++ "_" ++ toString pos)) sfx).map
              (fun p => (pre ++ p.1, p.2))
            ++ derivedItems rest key pre sfx (pos + 1))
          = Except.error PyErr.assertionError from by
        unfold flattenedOutcome
        rw [if_neg (fun hc => hdf (derived_nodup_of_combined hc))]]
      rfl
  · -- items scalar element
    intro key pre sfx pos ret rest v hnd ih2 h
    have hflat : flattenItems (v :: rest) key pre sfx pos ret
        = (insertUnique ret (pre ++ key ++ "_" ++ toString pos) v >>= fun ret' =>
            flattenItems rest key pre sfx (pos + 1) ret') := by
      cases v with
      | dict f => exact absurd rfl (hnd f)
      | str s => simp [flattenItems]
      | int n => simp [flattenItems]
      | bool b => simp [flattenItems]
      | none => simp [flattenItems]
      | list its => simp [flattenItems]
    have hder : derivedItems (v :: rest) key pre sfx pos
        = [(pre ++ key ++ "_" ++ toString pos, v)]
          ++ derivedItems rest key pre sfx (pos + 1) := by
      cases v with
      | dict f => exact absurd rfl (hnd f)
      | str s => simp [derivedItems]
      | int n => simp [derivedItems]
      | bool b => simp [derivedItems]
      | none => simp [derivedItems]
      | list its => simp [derivedItems]
    rw [hflat, hder]
    exact flatten_glue _ _ (insertUnique_spec ret _ _ h) (fun ret' h' => ih2 ret' h')

/-- C9: `flatten_config` succeeds exactly when the derived compound keys
are pairwise distinct, in which case its output is the full sequence of
derived pairs (every derived key appearing exactly once); a collision
aborts with the duplicate-key assertion instead of overwriting. -/
theorem flatten_config_unique_keys (fields : List (String × PyVal))
    (pfx : String) (sfx : Bool) :
    (flatten_config fields pfx sfx
       = if ((derivedFields fields (prePfx pfx) sfx).map Prod.fst).Nodup
         then Except.ok (derivedFields fields (prePfx pfx) sfx)
         else Except.error PyErr.assertionError)
  ∧ (∀ out, flatten_config fields pfx sfx = Except.ok out →
      (out.map Prod.fst).Nodup) := by
  have h1 : flatten_config fields pfx sfx
      = flattenedOutcome [] (derivedFields fields (prePfx pfx) sfx) :=
    flattenFields_spec fields (prePfx pfx) sfx [] (by simp)
  have h2 : flatten_config fields pfx sfx
      = if ((derivedFields fields (prePfx pfx) sfx).map Prod.fst).Nodup
        then Except.ok (derivedFields fields (prePfx pfx) sfx)
        else Except.error PyErr.assertionError := by
    rw [h1]; unfold flattenedOutcome; rw [List.nil_append]
  refine ⟨h2, ?_⟩
  intro out hout
  rw [h2] at hout
  by_cases hc : ((derivedFields fields (prePfx pfx) sfx).map Prod.fst).Nodup
  · rw [if_pos hc] at hout
    cases hout
    exact hc
  · rw [if_neg hc] at hout
    cases hout

/-- Witness: a concrete collision (`a.b` versus literal `a_b`) aborts,
and a collision-free input yields distinct keys. -/
theorem flatten_config_unique_keys_witness :
    flatten_config [("a", PyVal.dict [("b", PyVal.int 1)]), ("a_b", PyVal.int 2)] "" false
      = Except.error PyErr.assertionError
  ∧ (([("x", PyVal.int 5)] : List (String × PyVal)).map Prod.fst).Nodup := by
  constructor
  · rw [(flatten_config_unique_keys
        [("a", PyVal.dict [("b", PyVal.int 1)]), ("a_b", PyVal.int 2)] "" false).1]
    rw [show derivedFields
          [("a", PyVal.dict [("b", PyVal.int 1)]), ("a_b", PyVal.int 2)]
          (prePfx "") false
        = [("a_b", PyVal.int 1), ("a_b", PyVal.int 2)] from by
      simp [derivedFields, prePfx]]
    rw [if_neg (by simp)]
  · have hok : flatten_config [("x", PyVal.int 5)] "" false
        = Except.ok [("x", PyVal.int 5)] := by
      rw [(flatten_config_unique_keys [("x", PyVal.int 5)] "" false).1]
      rw [show derivedFields [("x", PyVal.int 5)] (prePfx "") false
          = [("x", PyVal.int 5)] from by simp [derivedFields, prePfx]]
      rw [if_pos (by simp)]
    exact (flatten_config_unique_keys [("x", PyVal.int 5)] "" false).2 _ hok

example : firstSeenDedup [["x"], ["x"]] = [["x"]] := by
  simp [firstSeenDedup]

example : aggregateCsvSet ["a"] [[("a", "x"), ("b", "1")], [("a", "x"), ("b", "2")]]
    = [(["x"], 2)] := by
  simp [aggregateCsvSet, groupTuple, rowGet, firstSeenDedup, List.insertionSort,
        List.orderedInsert]

theorem mem_firstSeenDedup {α : Type} [DecidableEq α] (l : List α) (a : α) :
    a ∈ firstSeenDedup l ↔ a ∈ l := by
  induction l using firstSeenDedup.induct with
  | case1 => simp [firstSeenDedup]
  | case2 b l ih =>
    rw [show firstSeenDedup (b :: l)
        = b :: firstSeenDedup (l.filter (fun x => x ≠ b)) from by
      simp [firstSeenDedup]]
    by_cases hab : a = b
    · subst hab; simp
    · simp only [List.mem_cons, ih, List.mem_filter]
      constructor
      · rintro (rfl | ⟨h, _⟩)
        · exact Or.inl rfl
        · exact Or.inr h
      · rintro (rfl | h)
        · exact Or.inl rfl
        · exact Or.inr ⟨h, by simpa using hab⟩

theorem nodup_firstSeenDedup {α : Type} [DecidableEq α] (l : List α) :
    (firstSeenDedup l).Nodup := by
  induction l using firstSeenDedup.induct with
  | case1 => simp [firstSeenDedup]
  | case2 b l ih =>
    rw [show firstSeenDedup (b :: l)
        = b :: firstSeenDedup (l.filter (fun x => x ≠ b)) from by
      simp [firstSeenDedup]]
    refine List.Nodup.cons ?_ ih
    intro hmem
    have := (mem_firstSeenDedup _ _).mp hmem
    simp [List.mem_filter] at this

theorem sorted_insertionSort_mapLe {α β : Type} [LinearOrder β] (f : α → β)
    (l : List α) :
    List.Sorted (fun a b => f a ≤ f b)
      (List.insertionSort (fun a b => f a ≤ f b) l) := by
  haveI : IsTotal α (fun a b => f a ≤ f b) := ⟨fun a b => le_total (f a) (f b)⟩
  haveI : IsTrans α (fun a b => f a ≤ f b) := ⟨fun a b c h1 h2 => le_trans h1 h2⟩
  exact List.sorted_insertionSort _ l

/-- C5: the column-subset aggregator groups rows by the tuple of projection
column values (missing values as empty strings), emits exactly one output
row per distinct group carrying its occurrence count as the appended
`launch_config_count`, in strictly ascending lexicographic order of the
grouping tuple; two rows identical on the projection columns but differing
elsewhere yield one row with count 2. -/
theorem aggregate_csv_set_correct (columns : List String)
    (rows : List (List (String × String))) :
    ((aggregateCsvSet columns rows).map Prod.fst).Nodup
  ∧ List.Sorted (fun a b : List String => a < b)
      ((aggregateCsvSet columns rows).map Prod.fst)
  ∧ (∀ k, k ∈ (aggregateCsvSet columns rows).map Prod.fst
      ↔ k ∈ rows.map (groupTuple columns))
  ∧ (aggregateCsvSet columns rows).map Prod.snd
      = ((aggregateCsvSet columns rows).map Prod.fst).map
          (fun k => (rows.map (groupTuple columns)).count k)
  ∧ (aggregateCsvSet columns rows).length
      = (firstSeenDedup (rows.map (groupTuple columns))).length
  ∧ aggregateCsvSet ["a"] [[("a", "x"), ("b", "1")], [("a", "x"), ("b", "2")]]
      = [(["x"], 2)] := by
  have hfst : (aggregateCsvSet columns rows).map Prod.fst
      = List.insertionSort (fun a b : List String => a ≤ b)
          (firstSeenDedup (rows.map (groupTuple columns))) := by
    unfold aggregateCsvSet
    simp [List.map_map, Function.comp_def]
  have hnodup : ((aggregateCsvSet columns rows).map Prod.fst).Nodup := by
    rw [hfst]
    exact (List.perm_insertionSort _ _).symm.nodup (nodup_firstSeenDedup _)
  refine ⟨hnodup, ?_, ?_, ?_, ?_, ?_⟩
  · have hle : List.Sorted (fun a b : List String => a ≤ b)
        ((aggregateCsvSet columns rows).map Prod.fst) := by
      rw [hfst]
      exact sorted_insertionSort_mapLe (fun k : List String => k) _
    exact hle.lt_of_le hnodup
  · intro k
    rw [hfst, List.mem_insertionSort, mem_firstSeenDedup]
  · unfold aggregateCsvSet
    simp [List.map_map, Function.comp_def]
  · unfold aggregateCsvSet
    simp [List.length_insertionSort]
  · simp [aggregateCsvSet, groupTuple, rowGet, firstSeenDedup, List.insertionSort,
          List.orderedInsert]

theorem foldl_insertHeader_eq (l : List String) (acc : List String) :
    l.foldl insertHeader acc
      = acc ++ firstSeenDedup (l.filter (fun k => k ∉ acc)) := by
  induction l generalizing acc with
  | nil => simp [firstSeenDedup]
  | cons a l ih =>
    simp only [List.foldl_cons]
    by_cases ha : a ∈ acc
    · rw [insertHeader, if_pos ha, ih acc]
      have hf : List.filter (fun k => decide (k ∉ acc)) (a :: l)
          = List.filter (fun k => decide (k ∉ acc)) l := by
        simp [List.filter_cons, ha]
      rw [hf]
    · rw [insertHeader, if_neg ha, ih (acc ++ [a])]
      have hf : List.filter (fun k => decide (k ∉ acc)) (a :: l)
          = a :: List.filter (fun k => decide (k ∉ acc)) l := by
        simp [List.filter_cons, ha]
      rw [hf]
      rw [show firstSeenDedup (a :: List.filter (fun k => decide (k ∉ acc)) l)
            = a :: firstSeenDedup ((List.filter (fun k => decide (k ∉ acc)) l).filter
                (fun b => b ≠ a)) from by simp [firstSeenDedup]]
      rw [List.append_assoc]
      congr 2
      rw [List.filter_filter, List.singleton_append]
      congr 1
      apply congrArg
      apply List.filter_congr
      intro x _
      by_cases hx : x = a
      · subst hx; simp
      · by_cases hxacc : x ∈ acc <;> simp [hx, hxacc]



theorem summaryAcc_stateOrder_foldl : ∀ (ws : List Worker) (acc : SummaryAcc),
    (ws.foldl summaryStep acc).stateOrder
      = (ws.map workerState).foldl insertHeader acc.stateOrder := by
  intro ws
  induction ws with
  | nil => intro acc; rfl
  | cons w ws ih =>
    intro acc
    simp only [List.foldl_cons, List.map_cons]
    rw [ih (summaryStep acc w)]
    rfl



/-- C6: the worker summary's group keys are sorted by
`(poolId, workerGroup, providerId, index of state in state_order)` — the
sorted list is exactly a permutation of the distinct group keys — where
`state_order` starts as `[requested, running, stopping, stopped]` and
appends each unrecognized state on first encounter, so an unknown
`pending` state lands after the four known states. -/
theorem worker_summary_sort_order (ws : List Worker) :
    List.Sorted (fun a b =>
        groupSortKey (summaryAcc ws).stateOrder a
          ≤ groupSortKey (summaryAcc ws).stateOrder b)
      (summaryKeys ws)
  ∧ (summaryKeys ws).Perm (summaryAcc ws).keySet
  ∧ (summaryAcc ws).stateOrder
      = ["requested", "running", "stopping", "stopped"]
        ++ firstSeenDedup ((ws.map workerState).filter
            (fun s => s ∉ (["requested", "running", "stopping", "stopped"] : List String)))
  ∧ (summaryAcc [exW "running" 2, exW "running" 3, exW "pending" 1]).stateOrder
      = ["requested", "running", "stopping", "stopped", "pending"] := by
  refine ⟨?_, ?_, ?_, ?_⟩
  · unfold summaryKeys
    exact sorted_insertionSort_mapLe (groupSortKey (summaryAcc ws).stateOrder) _
  · unfold summaryKeys
    exact List.perm_insertionSort _ _
  · rw [show (summaryAcc ws).stateOrder
        = (ws.map workerState).foldl insertHeader initAcc.stateOrder from
      summaryAcc_stateOrder_foldl ws initAcc]
    rw [foldl_insertHeader_eq]
    rfl
  · rw [show (summaryAcc [exW "running" 2, exW "running" 3, exW "pending" 1]).stateOrder
        = ([exW "running" 2, exW "running" 3, exW "pending" 1].map workerState).foldl
            insertHeader initAcc.stateOrder from
      summaryAcc_stateOrder_foldl _ initAcc]
    simp [workerState, exW, insertHeader, initAcc]

theorem gatherHeaders_eq (records : List (List (String × PyVal))) :
    gatherHeaders records
      = firstSeenDedup (records.flatMap (fun r => r.map Prod.fst)) := by
  have h : ∀ (rs : List (List (String × PyVal))) (acc : List String),
      rs.foldl (fun hs r => r.foldl (fun hs' kv => insertHeader hs' kv.1) hs) acc
        = (rs.flatMap (fun r => r.map Prod.fst)).foldl insertHeader acc := by
    intro rs
    induction rs with
    | nil => intro acc; simp
    | cons r rs ih =>
      intro acc
      simp only [List.foldl_cons, List.flatMap_cons, List.foldl_append]
      rw [List.foldl_map]
      exact ih _
  rw [gatherHeaders, h records [], foldl_insertHeader_eq]
  simp

theorem convertValue_eq_ok {k : String} {v : PyVal}
    (hw : (if k ∈ dateKeys then
            match v with
            | PyVal.str s => (reDatetimeMatch s).isSome
            | _ => false
          else true) = true) (full : Bool) :
    ∃ c, convertValue k v full = Except.ok c := by
  unfold convertValue
  by_cases hk : k ∈ dateKeys
  · rw [if_pos hk]
    rw [if_pos hk] at hw
    cases v with
    | str s =>
      obtain ⟨g, hg⟩ := Option.isSome_iff_exists.mp hw
      refine ⟨CsvCell.dt (datetimeOfGroups g full), ?_⟩
      simp [normalizeTimestamp, hg, Except.map]
    | int n => exact absurd hw (by simp)
    | bool b => exact absurd hw (by simp)
    | none => exact absurd hw (by simp)
    | dict f => exact absurd hw (by simp)
    | list items => exact absurd hw (by simp)
  · rw [if_neg hk]
    exact ⟨_, rfl⟩

theorem renderCell_eq_ok {r : List (String × PyVal)}
    (h : wellFormedRecord r = true) (full : Bool) (k : String) :
    renderCell r full k = Except.ok (renderCellOk r full k) := by
  have hex : ∃ c, renderCell r full k = Except.ok c := by
    unfold renderCell
    cases hf : r.find? (fun p => p.1 = k) with
    | none => exact ⟨_, rfl⟩
    | some p =>
      have hmem : p ∈ r := List.mem_of_find?_eq_some hf
      have hpk : p.1 = k := by
        have := List.find?_some hf
        simpa using this
      have hw := (List.all_eq_true.mp h) p hmem
      rw [hpk] at hw
      exact convertValue_eq_ok hw full
  obtain ⟨c, hc⟩ := hex
  rw [hc]
  unfold renderCellOk
  rw [hc]

theorem renderRow_eq_ok {r : List (String × PyVal)}
    (h : wellFormedRecord r = true) (headers : List String) (full : Bool) :
    renderRow headers full r = Except.ok (headers.map (renderCellOk r full)) := by
  unfold renderRow
  induction headers with
  | nil => rfl
  | cons k ks ih =>
    rw [List.mapM_cons, renderCell_eq_ok h full k, ih]
    rfl

theorem mapM_renderRow_eq_ok (hs : List String) (full : Bool) :
    ∀ records : List (List (String × PyVal)), wellFormedDates records = true →
    records.mapM (renderRow hs full)
      = Except.ok (records.map (fun r => hs.map (renderCellOk r full))) := by
  intro records
  induction records with
  | nil => intro _; rfl
  | cons r rs ih =>
    intro h
    rw [wellFormedDates, List.all_cons, Bool.and_eq_true] at h
    rw [List.mapM_cons, renderRow_eq_ok h.1 hs full, ih h.2]
    rfl

theorem toCsvRows_eq_ok {records : List (List (String × PyVal))}
    (h : wellFormedDates records = true) (full : Bool) :
    toCsvRows records full
      = Except.ok (records.map (fun r =>
          (gatherHeaders records).map (renderCellOk r full))) :=
  mapM_renderRow_eq_ok (gatherHeaders records) full records h

theorem pythonMax_eq_foldl {l : List Nat} (h : l ≠ []) :
    pythonMax l = Except.ok (l.foldl max 0) := by
  cases l with
  | nil => exact absurd rfl h
  | cons a as => simp [pythonMax, List.foldl_cons, Nat.zero_max]

theorem keySet_length_mono : ∀ (ws : List Worker) (acc : SummaryAcc),
    acc.keySet.length ≤ (ws.foldl summaryStep acc).keySet.length := by
  intro ws
  induction ws with
  | nil => intro acc; exact le_refl _
  | cons w ws ih =>
    intro acc
    rw [List.foldl_cons]
    refine le_trans ?_ (ih (summaryStep acc w))
    have hstep : (summaryStep acc w).keySet
        = addToSet acc.keySet
          (w.workerPoolId.getD "", w.workerGroup.getD "",
           w.providerId.getD "", w.state.getD "") := rfl
    rw [hstep]
    unfold addToSet
    split
    · exact le_refl _
    · simp

theorem summaryKeys_ne_nil {ws : List Worker} (h : ws ≠ []) :
    summaryKeys ws ≠ [] := by
  cases ws with
  | nil => exact absurd rfl h
  | cons w rest =>
    unfold summaryKeys
    intro hcon
    have hlen := congrArg List.length hcon
    rw [List.length_insertionSort] at hlen
    simp only [List.length_nil] at hlen
    have h1 : 1 ≤ (summaryAcc (w :: rest)).keySet.length := by
      unfold summaryAcc
      rw [List.foldl_cons]
      refine le_trans ?_ (keySet_length_mono rest (summaryStep initAcc w))
      simp [summaryStep, initAcc, addToSet]
    omega

theorem foldl_addToSet_length_le {α β : Type} [DecidableEq α] (f : β → α) :
    ∀ (xs : List β) (s : List α),
    s.length ≤ (xs.foldl (fun t x => addToSet t (f x)) s).length := by
  intro xs
  induction xs with
  | nil => intro s; exact le_refl _
  | cons x xs ih =>
    intro s
    rw [List.foldl_cons]
    refine le_trans ?_ (ih (addToSet s (f x)))
    unfold addToSet
    split
    · exact le_refl _
    · simp

theorem poolSummaryKeys_ne_nil {ps : List Pool} (h : ps ≠ []) :
    poolSummaryKeys ps ≠ [] := by
  cases ps with
  | nil => exact absurd rfl h
  | cons p rest =>
    unfold poolSummaryKeys
    intro hcon
    have hlen := congrArg List.length hcon
    rw [List.length_insertionSort] at hlen
    simp only [List.length_nil] at hlen
    have h1 : 1 ≤ ((p :: rest).foldl (fun s q => addToSet s (poolKey q)) []).length := by
      rw [List.foldl_cons]
      refine le_trans ?_ (foldl_addToSet_length_le poolKey rest (addToSet [] (poolKey p)))
      simp [addToSet]
    omega

theorem stateOrder_ne_nil (ws : List Worker) : (summaryAcc ws).stateOrder ≠ [] := by
  rw [show (summaryAcc ws).stateOrder
      = (ws.map workerState).foldl insertHeader initAcc.stateOrder from
    summaryAcc_stateOrder_foldl ws initAcc]
  rw [foldl_insertHeader_eq]
  simp [initAcc]

theorem worker_summary_stats_ok {ws : List Worker} (h : summaryKeys ws ≠ []) :
    worker_summary_stats ws = Except.ok
      { stateOrder := (summaryAcc ws).stateOrder
        keys := summaryKeys ws
        keyWorkerCounts := (summaryAcc ws).keyWorkerCounts
        keyCapacityCounts := (summaryAcc ws).keyCapacityCounts
        stateWorkerCounts := (summaryAcc ws).stateWorkerCounts
        stateCapacityCounts := (summaryAcc ws).stateCapacityCounts
        poolIdLen := max "Pool ID".length
          (((summaryKeys ws).map (fun k => k.1.length)).foldl max 0)
        groupLen := max "Group ID".length
          (((summaryKeys ws).map (fun k => k.2.1.length)).foldl max 0)
        providerLen := max "Provider ID".length
          (((summaryKeys ws).map (fun k => k.2.2.1.length)).foldl max 0)
        stateLen := (((summaryAcc ws).stateOrder).map String.length).foldl max 0
        workersLen := "Workers".length
        capacityLen := "Capacity".length } := by
  have hk : ∀ f : GroupKey → Nat, (summaryKeys ws).map f ≠ [] := by
    intro f hc
    exact h (List.map_eq_nil_iff.mp hc)
  have hso : ((summaryAcc ws).stateOrder).map String.length ≠ [] := by
    intro hc
    exact stateOrder_ne_nil ws (List.map_eq_nil_iff.mp hc)
  simp only [worker_summary_stats]
  rw [pythonMax_eq_foldl (hk _), pythonMax_eq_foldl (hk _), pythonMax_eq_foldl (hk _),
      pythonMax_eq_foldl hso]
  rfl

theorem worker_summary_dash_ok {ws : List Worker} (h : summaryKeys ws ≠ []) :
    worker_summary_dash ws = Except.ok
      { stateOrder := (summaryAcc ws).stateOrder
        keys := summaryKeys ws
        keyWorkerCounts := (summaryAcc ws).keyWorkerCounts
        keyCapacityCounts := (summaryAcc ws).keyCapacityCounts
        stateWorkerCounts := (summaryAcc ws).stateWorkerCounts
        stateCapacityCounts := (summaryAcc ws).stateCapacityCounts
        poolIdLen := max "Pool ID".length
          (((summaryKeys ws).map (fun k => k.1.length)).foldl max 0)
        groupLen := max "Group ID".length
          (((summaryKeys ws).map (fun k => k.2.1.length)).foldl max 0)
        providerLen := max "Provider ID".length
          (((summaryKeys ws).map (fun k => k.2.2.1.length)).foldl max 0)
        stateLen := max "State".length
          (((summaryKeys ws).map (fun k => k.2.2.2.length)).foldl max 0)
        workersLen := "Workers".length
        capacityLen := "Capacity".length } := by
  have hk : ∀ f : GroupKey → Nat, (summaryKeys ws).map f ≠ [] := by
    intro f hc
    exact h (List.map_eq_nil_iff.mp hc)
  simp only [worker_summary_dash]
  rw [pythonMax_eq_foldl (hk _), pythonMax_eq_foldl (hk _), pythonMax_eq_foldl (hk _),
      pythonMax_eq_foldl (hk _)]
  rfl

theorem worker_pool_summary_ok {ps : List Pool} (h : poolSummaryKeys ps ≠ []) :
    worker_pool_summary ps = Except.ok
      { keys := poolSummaryKeys ps
        poolIdW := max "Pool ID".length
          (((poolSummaryKeys ps).map (fun k => k.1.length)).foldl max 0)
        providerW := max "Provider ID".length
          (((poolSummaryKeys ps).map (fun k => k.2.1.length)).foldl max 0)
        capacityW := max "Capacity".length
          (((poolSummaryKeys ps).map (fun k => (toString k.2.2.1).length)).foldl max 0)
        minCapW := max "Min Cap".length
          (((poolSummaryKeys ps).map
            (fun k => (strOfOptInt k.2.2.2.1).length)).foldl max 0)
        maxCapW := max "Max Cap".length
          (((poolSummaryKeys ps).map
            (fun k => (strOfOptInt k.2.2.2.2.1).length)).foldl max 0)
        ownerW := max "Owner".length
          (((poolSummaryKeys ps).map (fun k => k.2.2.2.2.2.1.length)).foldl max 0)
        launchConfigsW := max "Launch Configs".length
          (((poolSummaryKeys ps).map
            (fun k => (toString k.2.2.2.2.2.2).length)).foldl max 0)
        poolCount := ps.length } := by
  have hk : ∀ f : PoolKey → Nat, (poolSummaryKeys ps).map f ≠ [] := by
    intro f hc
    exact h (List.map_eq_nil_iff.mp hc)
  simp only [worker_pool_summary]
  rw [pythonMax_eq_foldl (hk _), pythonMax_eq_foldl (hk _), pythonMax_eq_foldl (hk _),
      pythonMax_eq_foldl (hk _), pythonMax_eq_foldl (hk _), pythonMax_eq_foldl (hk _),
      pythonMax_eq_foldl (hk _)]
  rfl

theorem le_foldl_max (l : List Nat) (a : Nat) : a ≤ l.foldl max a := by
  induction l generalizing a with
  | nil => exact le_refl _
  | cons b l ih =>
    rw [List.foldl_cons]
    exact le_trans (le_max_left a b) (ih (max a b))

theorem foldl_max_le_of_mem {l : List Nat} {x : Nat} (hx : x ∈ l) (a : Nat) :
    x ≤ l.foldl max a := by
  induction l generalizing a with
  | nil => cases hx
  | cons b l ih =>
    rw [List.foldl_cons]
    rcases List.mem_cons.mp hx with rfl | hmem
    · exact le_trans (le_max_right a x) (le_foldl_max l (max a x))
    · exact ih hmem (max a b)

theorem requested_mem_stateOrder (ws : List Worker) :
    "requested" ∈ (summaryAcc ws).stateOrder := by
  rw [show (summaryAcc ws).stateOrder
      = (ws.map workerState).foldl insertHeader initAcc.stateOrder from
    summaryAcc_stateOrder_foldl ws initAcc]
  rw [foldl_insertHeader_eq]
  simp [initAcc]

/-- C4 (amended): for non-empty inputs, the Pool ID/Group ID/Provider ID
widths of both worker-summary variants and all seven widths of the
worker-pool summary equal max(header length, longest stringified value);
the Workers and Capacity widths of both variants are the bare header
lengths; the shared State width is the longest known state (matching the
per-state table only) in `worker_pool_stats.py`, and max(header, longest
group-key state) (matching the group table only) in
`worker-pool-stats.py`. -/
theorem column_widths_amended {ws : List Worker} (hw : ws ≠ [])
    {ps : List Pool} (hp : ps ≠ []) :
    ((worker_summary_stats ws).map WorkerSummaryData.poolIdLen
      = Except.ok (specColWidth "Pool ID" ((summaryKeys ws).map (fun k => k.1))))
  ∧ ((worker_summary_stats ws).map WorkerSummaryData.groupLen
      = Except.ok (specColWidth "Group ID" ((summaryKeys ws).map (fun k => k.2.1))))
  ∧ ((worker_summary_stats ws).map WorkerSummaryData.providerLen
      = Except.ok (specColWidth "Provider ID" ((summaryKeys ws).map (fun k => k.2.2.1))))
  ∧ ((worker_summary_stats ws).map WorkerSummaryData.workersLen
      = Except.ok "Workers".length)
  ∧ ((worker_summary_stats ws).map WorkerSummaryData.capacityLen
      = Except.ok "Capacity".length)
  ∧ ((worker_summary_stats ws).map WorkerSummaryData.stateLen
      = Except.ok (specColWidth "State" (summaryAcc ws).stateOrder))
  ∧ ((worker_summary_dash ws).map WorkerSummaryData.stateLen
      = Except.ok (specColWidth "State" ((summaryKeys ws).map (fun k => k.2.2.2))))
  ∧ ((worker_summary_dash ws).map WorkerSummaryData.poolIdLen
      = Except.ok (specColWidth "Pool ID" ((summaryKeys ws).map (fun k => k.1))))
  ∧ ((worker_summary_dash ws).map WorkerSummaryData.groupLen
      = Except.ok (specColWidth "Group ID" ((summaryKeys ws).map (fun k => k.2.1))))
  ∧ ((worker_summary_dash ws).map WorkerSummaryData.providerLen
      = Except.ok (specColWidth "Provider ID" ((summaryKeys ws).map (fun k => k.2.2.1))))
  ∧ ((worker_summary_dash ws).map WorkerSummaryData.workersLen
      = Except.ok "Workers".length)
  ∧ ((worker_summary_dash ws).map WorkerSummaryData.capacityLen
      = Except.ok "Capacity".length)
  ∧ ((worker_pool_summary ps).map PoolSummaryData.poolIdW
      = Except.ok (specColWidth "Pool ID" ((poolSummaryKeys ps).map (fun k => k.1))))
  ∧ ((worker_pool_summary ps).map PoolSummaryData.providerW
      = Except.ok (specColWidth "Provider ID" ((poolSummaryKeys ps).map (fun k => k.2.1))))
  ∧ ((worker_pool_summary ps).map PoolSummaryData.capacityW
      = Except.ok (specColWidth "Capacity"
          ((poolSummaryKeys ps).map (fun k => toString k.2.2.1))))
  ∧ ((worker_pool_summary ps).map PoolSummaryData.minCapW
      = Except.ok (specColWidth "Min Cap"
          ((poolSummaryKeys ps).map (fun k => strOfOptInt k.2.2.2.1))))
  ∧ ((worker_pool_summary ps).map PoolSummaryData.maxCapW
      = Except.ok (specColWidth "Max Cap"
          ((poolSummaryKeys ps).map (fun k => strOfOptInt k.2.2.2.2.1))))
  ∧ ((worker_pool_summary ps).map PoolSummaryData.ownerW
      = Except.ok (specColWidth "Owner"
          ((poolSummaryKeys ps).map (fun k => k.2.2.2.2.2.1))))
  ∧ ((worker_pool_summary ps).map PoolSummaryData.launchConfigsW
      = Except.ok (specColWidth "Launch Configs"
          ((poolSummaryKeys ps).map (fun k => toString k.2.2.2.2.2.2)))) := by
  have hks := summaryKeys_ne_nil hw
  have hkp := poolSummaryKeys_ne_nil hp
  rw [worker_summary_stats_ok hks, worker_summary_dash_ok hks,
      worker_pool_summary_ok hkp]
  have hb : "State".length
      ≤ (((summaryAcc ws).stateOrder).map String.length).foldl max 0 := by
    refine le_trans (show "State".length ≤ "requested".length by decide) ?_
    exact foldl_max_le_of_mem
      (List.mem_map.mpr ⟨"requested", requested_mem_stateOrder ws, rfl⟩) 0
  have habs : specColWidth "State" (summaryAcc ws).stateOrder
      = (((summaryAcc ws).stateOrder).map String.length).foldl max 0 := by
    unfold specColWidth
    exact Nat.max_eq_right hb
  refine ⟨?_, ?_, ?_, rfl, rfl, ?_, ?_, ?_, ?_, ?_, rfl, rfl, ?_, ?_, ?_, ?_,
          ?_, ?_, ?_⟩
  all_goals
    simp [Except.map, specColWidth, List.map_map, Function.comp_def, habs, hb]



/-- C1 (code bug): on the spec's example workers the per-group capacity
table correctly sums capacities (running: 5, total 6), but the per-state
capacity table is incremented by 1 per worker — the
`state_capacity_counts[state] += 1` line — so it equals the per-state
worker counts (running: 2, total 3) instead of the capacity sums the
claim states (running: 5, total 6). -/
theorem worker_summary_capacity_divergence :
    (summaryAcc exampleWorkers).keyCapacityCounts
      = [(("", "", "", "running"), 5), (("", "", "", "pending"), 1)]
  ∧ (summaryAcc exampleWorkers).stateWorkerCounts
      = [("running", 2), ("pending", 1)]
  ∧ (summaryAcc exampleWorkers).stateCapacityCounts
      = [("running", 2), ("pending", 1)]
  ∧ (exampleWorkers.map workerCapacity).sum = 6
  ∧ ((summaryAcc exampleWorkers).keyCapacityCounts.map Prod.snd).sum = 6
  ∧ ((summaryAcc exampleWorkers).stateCapacityCounts.map Prod.snd).sum = 3 := by
  refine ⟨by decide, by decide, by decide, by decide, by decide, by decide⟩

/-- C2 (code bug): `RE_DATETIME` rejects `2021-03-05T14:22:09Z` because
the three millisecond digits are mandatory (only the period is optional,
contrary to the claim and to the code's own `Optional millisecond`
comment), while it accepts trailing text after the `Z` (`re.match` does
not anchor the end) and the out-of-range month 19. -/
theorem re_datetime_msecond_mandatory :
    reDatetimeMatch "2021-03-05T14:22:09Z" = Option.none
  ∧ (reDatetimeMatch "2021-03-05T14:22:09.500Z").isSome = true
  ∧ (reDatetimeMatch "2021-03-05T14:22:09.500Zextra").isSome = true
  ∧ (reDatetimeMatch "2021-19-05T14:22:09.500Z").isSome = true := by
  refine ⟨by decide, by decide, by decide, by decide⟩

/-- C3 (code bug): `get_pool_workers` concatenates the items of the pages
in order, but `get_worker_pools` raises `NameError` as soon as a
continuation token is present, because its loop body references the
undefined name `pool_id`. -/
theorem pagination_collectors_divergence :
    get_pool_workers (Page.mk ["w1"] (Option.some "tok")) [Page.mk ["w2"] Option.none]
      = ["w1", "w2"]
  ∧ get_worker_pools (Page.mk ["p1"] (Option.some "tok")) [Page.mk ["p2"] Option.none]
      = Except.error PyErr.nameError := ⟨rfl, rfl⟩

/-- C10: on an empty record list all three summary renderers fail with
`ValueError` (a `max()` over an empty sequence) instead of rendering an
empty table. -/
theorem summary_renderers_fail_on_empty :
    worker_summary_stats [] = Except.error PyErr.valueError
  ∧ worker_summary_dash [] = Except.error PyErr.valueError
  ∧ worker_pool_summary [] = Except.error PyErr.valueError := ⟨rfl, rfl, rfl⟩



/-- Projecting `keyWorkerCounts` out of the summary loop: the fold of
`summaryStep` bumps the per-key worker count by 1 per worker. -/
theorem keyWorkerCounts_foldl : ∀ (ws : List Worker) (acc : SummaryAcc),
    (ws.foldl summaryStep acc).keyWorkerCounts
      = ws.foldl (fun m v => bump m (workerKey v) 1) acc.keyWorkerCounts := by
  intro ws
  induction ws with
  | nil => intro _; rfl
  | cons w ws ih =>
    intro acc
    simp only [List.foldl_cons]
    rw [ih (summaryStep acc w)]
    rfl

/-- Bumping the same key `n` times adds `n` to its count. -/
theorem foldl_bump_replicate (w : Worker) : ∀ (n : Nat) (c : Int),
    (List.replicate n w).foldl (fun m v => bump m (workerKey v) 1)
        [(workerKey w, c)]
      = [(workerKey w, c + n)] := by
  intro n
  induction n with
  | zero => intro c; simp
  | succ n ih =>
    intro c
    rw [List.replicate_succ, List.foldl_cons]
    rw [show bump [(workerKey w, c)] (workerKey w) 1
        = [(workerKey w, c + 1)] from by simp [bump]]
    rw [ih (c + 1)]
    congr 1
    push_cast
    ring_nf

/-- Ten million identical workers collapse to one group whose worker
count is 10000000. -/
theorem bigWorkerList_workerCount :
    (summaryAcc bigWorkerList).keyWorkerCounts
      = [(("p", "g", "i", "running"), 10000000)] := by
  unfold summaryAcc bigWorkerList
  rw [keyWorkerCounts_foldl]
  rw [show (10000000 : Nat) = 9999999 + 1 from rfl]
  rw [List.replicate_succ, List.foldl_cons]
  rw [show bump initAcc.keyWorkerCounts (workerKey c4Worker) 1
      = [(workerKey c4Worker, 1)] from rfl]
  rw [foldl_bump_replicate c4Worker 9999999 1]
  norm_num [workerKey, c4Worker]

/-- C4 (counterexample): for a single worker in state `running`, the
State column of the group table of `worker_pool_stats.py` gets width 9
(longest known state, `requested`) although the spec rule gives
max(len('State'), len('running')) = 7; symmetrically the dash variant
uses width 7 although its per-state table renders `requested` (9).
Moreover the Workers and Capacity widths ignore the values: a worker of
capacity 123456789 renders a 9-character value in a Capacity column of
width `len('Capacity') = 8`, and ten million identical workers render
the 8-character count 10000000 in a Workers column of width
`len('Workers') = 7`. -/
theorem column_width_counterexample :
    (summaryKeys [c4Worker]).map (fun k => k.2.2.2) = ["running"]
  ∧ (worker_summary_stats [c4Worker]).map WorkerSummaryData.stateOrder
      = Except.ok ["requested", "running", "stopping", "stopped"]
  ∧ (worker_summary_stats [c4Worker]).map WorkerSummaryData.stateLen = Except.ok 9
  ∧ specColWidth "State" ["running"] = 7
  ∧ (worker_summary_dash [c4Worker]).map WorkerSummaryData.stateLen = Except.ok 7
  ∧ specColWidth "State" ["requested", "running", "stopping", "stopped"] = 9
  ∧ (summaryAcc [c4CapWorker]).keyCapacityCounts
      = [(("p", "g", "i", "running"), 123456789)]
  ∧ (worker_summary_stats [c4CapWorker]).map WorkerSummaryData.capacityLen
      = Except.ok 8
  ∧ specColWidth "Capacity" [toString (123456789 : Int)] = 9
  ∧ (summaryAcc bigWorkerList).keyWorkerCounts
      = [(("p", "g", "i", "running"), 10000000)]
  ∧ (worker_summary_stats bigWorkerList).map WorkerSummaryData.workersLen
      = Except.ok 7
  ∧ specColWidth "Workers" [toString (10000000 : Int)] = 8 := by
  have hne : bigWorkerList ≠ [] := by
    intro h
    have hlen := congrArg List.length h
    rw [show bigWorkerList = List.replicate 10000000 c4Worker from rfl,
        List.length_replicate, List.length_nil] at hlen
    exact absurd hlen (by omega)
  refine ⟨rfl, rfl, rfl, by decide, rfl, by decide, by decide, rfl, by decide,
          bigWorkerList_workerCount, ?_, by decide⟩
  rw [worker_summary_stats_ok (summaryKeys_ne_nil hne)]
  rfl



/-- Witness for the amended C4 statement at a one-worker, one-pool input. -/
theorem column_widths_amended_witness :
    ([c4Worker] : List Worker) ≠ []
  ∧ ([c4Pool] : List Pool) ≠ []
  ∧ (worker_summary_stats [c4Worker]).map WorkerSummaryData.poolIdLen
      = Except.ok (specColWidth "Pool ID"
          ((summaryKeys [c4Worker]).map (fun k => k.1))) := by
  refine ⟨by simp, by simp, ?_⟩
  exact (@column_widths_amended [c4Worker] (by simp) [c4Pool] (by simp)).1

/-- C8: for every string the matcher accepts, the normalizer with
`full_precision=false` yields a timezone-naive whole-second datetime with
zero microseconds, and with `full_precision=true` keeps the millisecond
fraction (as microseconds) and the UTC marker. -/
theorem normalize_timestamp_precision (s : String) (g : DtGroups)
    (h : reDatetimeMatch s = Option.some g) :
    normalizeTimestamp s false
      = Except.ok { year := g.year, month := g.month, day := g.day,
                    hour := g.hour, minute := g.minute, second := g.second,
                    microsecond := 0, utc := false }
  ∧ normalizeTimestamp s true
      = Except.ok { year := g.year, month := g.month, day := g.day,
                    hour := g.hour, minute := g.minute, second := g.second,
                    microsecond := 1000 * g.msecond, utc := true } := by
  unfold normalizeTimestamp
  rw [h]
  exact ⟨by simp [datetimeOfGroups], by simp [datetimeOfGroups]⟩

/-- Witness: the spec's example timestamp, with and without full
precision. -/
theorem normalize_timestamp_precision_witness :
    reDatetimeMatch "2021-03-05T14:22:09.500Z"
      = Option.some { year := 2021, month := 3, day := 5, hour := 14,
                      minute := 22, second := 9, msecond := 500 }
  ∧ normalizeTimestamp "2021-03-05T14:22:09.500Z" false
      = Except.ok { year := 2021, month := 3, day := 5, hour := 14,
                    minute := 22, second := 9, microsecond := 0, utc := false }
  ∧ normalizeTimestamp "2021-03-05T14:22:09.500Z" true
      = Except.ok { year := 2021, month := 3, day := 5, hour := 14,
                    minute := 22, second := 9, microsecond := 500000,
                    utc := true } := by
  have hm : reDatetimeMatch "2021-03-05T14:22:09.500Z"
      = Option.some { year := 2021, month := 3, day := 5, hour := 14,
                      minute := 22, second := 9, msecond := 500 } := by decide
  have h := normalize_timestamp_precision _ _ hm
  exact ⟨hm, h.1, h.2.trans rfl⟩

theorem renderCellOk_missing {r : List (String × PyVal)} {k : String}
    (h : pyHasKey r k = false) (full : Bool) :
    renderCellOk r full k = CsvCell.val (PyVal.str "") := by
  have hf : r.find? (fun p => p.1 = k) = Option.none := by
    rw [List.find?_eq_none]
    intro p hp
    rw [pyHasKey, List.any_eq_false] at h
    simpa using h p hp
  unfold renderCellOk renderCell
  rw [hf]

/-- C7: the row projector's header is the first-seen-order deduplicated
union of all field names of the records; with well-formed date fields it
emits exactly one row per record, aligned to the header, in which a
missing key renders as the empty string; and the empty input yields an
empty header and no rows, without error. -/
theorem to_csv_projector_correct (records : List (List (String × PyVal)))
    (full : Bool) (h : wellFormedDates records = true) :
    (gatherHeaders records).Nodup
  ∧ gatherHeaders records
      = firstSeenDedup (records.flatMap (fun r => r.map Prod.fst))
  ∧ (∀ k, k ∈ gatherHeaders records ↔ ∃ r ∈ records, k ∈ r.map Prod.fst)
  ∧ toCsvRows records full
      = Except.ok (records.map (fun r =>
          (gatherHeaders records).map (renderCellOk r full)))
  ∧ (∃ rows, toCsvRows records full = Except.ok rows
      ∧ rows.length = records.length)
  ∧ (∀ r k, pyHasKey r k = false →
      renderCellOk r full k = CsvCell.val (PyVal.str ""))
  ∧ (gatherHeaders [] = ([] : List String)
      ∧ toCsvRows [] full = Except.ok []) := by
  refine ⟨?_, gatherHeaders_eq records, ?_, toCsvRows_eq_ok h full, ?_, ?_, rfl, rfl⟩
  · rw [gatherHeaders_eq]
    exact nodup_firstSeenDedup _
  · intro k
    rw [gatherHeaders_eq, mem_firstSeenDedup]
    simp [List.mem_flatMap]
  · exact ⟨_, toCsvRows_eq_ok h full, by simp⟩
  · intro r k hk
    exact renderCellOk_missing hk full



/-- Witness: the projector theorem applied to two concrete records. -/
theorem to_csv_projector_correct_witness :
    wellFormedDates exampleRecords = true
  ∧ (gatherHeaders exampleRecords).Nodup :=
  ⟨by decide, (to_csv_projector_correct exampleRecords false (by decide)).1⟩
